import Mathlib

/-!
Shallow embedding of the Connect Four game-logic engine
(`logic.py` together with `win_detection.py`).

The board is a list of rows, each row a list of `Square` records, exactly as
`Logic._initialize_board` builds it (`[row][column]`, row 0 at the bottom).
Player ids are single decimal digits (validated to 1..9, with 0 the empty
sentinel), so the Python string joins and `str.find` over a line of the board
are modelled as a list of ids and a sublist search (`find_combination`).
All functions are pure: Python methods that mutate `self` become functions
from the old `Logic` state to the new one.
-/

namespace ConnectFour

/-- BOARD_ROWS from logic.py: the number of rows in the board. -/
def BOARD_ROWS : Nat := 6

/-- BOARD_COLUMNS from logic.py: the number of columns in the board. -/
def BOARD_COLUMNS : Nat := 7

/-- COMBINATION_LENGTH from logic.py: pieces in a row required to win. -/
def COMBINATION_LENGTH : Nat := 4

/-- Square from logic.py: a board cell and the piece within it. -/
structure Square where
  row : Nat
  column : Nat
  player_id : Nat
deriving DecidableEq

/-- Square.NO_ID from logic.py: the empty-square sentinel. -/
def Square.NO_ID : Nat := 0

/-- Player from logic.py: an id (1..9) and a piece colour. -/
structure Player where
  id : Nat
  colour : String
deriving DecidableEq

/-- Player.winning_combination: the id repeated COMBINATION_LENGTH times.
logic.py stores the string str(id) * COMBINATION_LENGTH; with single-digit
ids this is the list of the id repeated, one entry per character. -/
def Player.winning_combination (p : Player) : List Nat :=
  List.replicate COMBINATION_LENGTH p.id

/-- Player.__init__ (logic.py lines 22-37): raises ValueError unless
1 <= id <= 9, otherwise constructs the player. The argument is an integer
as in Python, so negative ids are representable. -/
def Player.make (id : Int) (colour : String) : Except String Player :=
  if id < 1 ∨ id > 9 then
    Except.error "ValueError: id must be between 1 and 9, inclusive."
  else
    Except.ok { id := id.toNat, colour := colour }

/-- PLAYERS from logic.py: the two players of the game. -/
def PLAYERS : List Player :=
  [{ id := 1, colour := "blue" }, { id := 2, colour := "red" }]

/-- The Logic state (logic.py lines 95-108). `itertools.cycle(PLAYERS)`
together with the stored `current_player` is modelled by `player_index`,
the number of times `next` has been called minus one: the current player
is `PLAYERS[player_index % len(PLAYERS)]`. The board field is called
`_current_squares` in logic.py and `current_squares` in win_detection.py
(see `logic_instance_attributes` below for this mismatch); the Lean field
models the grid both names are meant to denote. -/
structure Logic where
  player_index : Nat
  current_squares : List (List Square)
  has_winner : Bool
  winning_coordinates : List (Nat × Nat)
deriving DecidableEq

/-- Logic._initialize_board (logic.py line 112): a fresh ROWS x COLUMNS grid
of empty squares, in the form [row][column]. -/
def fresh_board : List (List Square) :=
  (List.range BOARD_ROWS).map (fun row =>
    (List.range BOARD_COLUMNS).map (fun column =>
      { row := row, column := column, player_id := Square.NO_ID }))

/-- Logic.__init__: the fresh engine. `next(self._players)` has been called
once, so the current player is PLAYERS[0]. -/
def Logic.init : Logic :=
  { player_index := 0
    current_squares := fresh_board
    has_winner := false
    winning_coordinates := [] }

/-- The player whose turn it is: PLAYERS[player_index % 2], the value
logic.py keeps in `self.current_player`. -/
def Logic.current_player (g : Logic) : Player :=
  PLAYERS.getD (g.player_index % PLAYERS.length) { id := 1, colour := "blue" }

/-- Logic.reset_game (logic.py lines 114-119): fresh board, no winner,
no winning coordinates; the player cycle is not touched. -/
def Logic.reset_game (g : Logic) : Logic :=
  { g with
    current_squares := fresh_board
    has_winner := false
    winning_coordinates := [] }

/-- Logic.switch_to_next_player (logic.py lines 121-123):
`self.current_player = next(self._players)`. -/
def Logic.switch_to_next_player (g : Logic) : Logic :=
  { g with player_index := g.player_index + 1 }

/-- The square of a board at [row][column] (out-of-range reads fall back
to an empty square carrying the asked-for coordinates; every use in the
theorems is guarded by bounds). -/
def board_square (b : List (List Square)) (row column : Nat) : Square :=
  (b.getD row []).getD column
    { row := row, column := column, player_id := Square.NO_ID }

/-- The square of the game's board at [row][column]. -/
def Logic.square_at (g : Logic) (row column : Nat) : Square :=
  board_square g.current_squares row column

/-- The list comprehension `[row[column] for row in self._current_squares]`
(logic.py lines 134 and 185, win_detection.py line 39): the squares of one
column, bottom row first. -/
def Logic.column_squares (g : Logic) (column : Nat) : List Square :=
  g.current_squares.filterMap (fun row => row[column]?)

/-- Logic.get_first_empty_square_in_column (logic.py lines 125-139):
the first square of the column, scanning from row 0 upward, whose
player_id is the empty sentinel; none if the column is full. -/
def Logic.get_first_empty_square_in_column (g : Logic) (column : Nat) :
    Option Square :=
  (g.column_squares column).find? (fun square => square.player_id == Square.NO_ID)

/-- Logic.is_valid_move (logic.py lines 141-155): the column has an empty
square and the game has no winner. -/
def Logic.is_valid_move (g : Logic) (selected_column : Nat) : Bool :=
  (g.get_first_empty_square_in_column selected_column).isSome && !g.has_winner

/-- Logic.is_tied (logic.py lines 157-172): no winner and the top row
(row BOARD_ROWS - 1) has no empty square. The Python joins the top row's
ids into a string and looks for the sentinel's digit; with single-digit
ids that is exactly membership of NO_ID in the list of ids. -/
def Logic.is_tied (g : Logic) : Bool :=
  let top_row_list := g.current_squares.getD (BOARD_ROWS - 1) []
  let no_winner := !g.has_winner
  no_winner && !((top_row_list.map (fun square => square.player_id)).contains Square.NO_ID)

/-- Python str.find of `pat` inside `s`, over lists of single-digit ids:
the least offset at which `pat` occurs as a contiguous sublist, or none
(Python returns -1). -/
def find_combination (pat : List Nat) : List Nat → Option Nat
  | [] => if pat = [] then some 0 else none
  | a :: tl =>
    if (a :: tl).take pat.length = pat then some 0
    else (find_combination pat tl).map (fun k => k + 1)

/-- detect_win_in_row (win_detection.py lines 5-25), as it reads the board
it asks the `logic` argument for: join the row's ids, find the current
player's winning combination, and translate the offset into coordinates.
(The attribute name it uses to reach the board is modelled separately in
`logic_instance_attributes` / `Logic.handle_move_run`.) -/
def detect_win_in_row (g : Logic) (row : Nat) : Option (List (Nat × Nat)) :=
  let row_squares := g.current_squares.getD row []
  let row_string := row_squares.map (fun square => square.player_id)
  match find_combination g.current_player.winning_combination row_string with
  | some win_start_column =>
    some ((List.range COMBINATION_LENGTH).map (fun i => (row, win_start_column + i)))
  | none => none

/-- Logic._check_for_win_in_column (logic.py lines 174-196): join the
column's ids, find the winning combination, translate the starting row. -/
def Logic.check_for_win_in_column (g : Logic) (column : Nat) :
    Option (List (Nat × Nat)) :=
  let column_string := (g.column_squares column).map (fun square => square.player_id)
  match find_combination g.current_player.winning_combination column_string with
  | some combination_start_row =>
    some ((List.range COMBINATION_LENGTH).map (fun i => (combination_start_row + i, column)))
  | none => none

/-- Logic._get_ascending_diagonal_start_coordinates (logic.py lines 198-212):
`while row and column > 0: row -= 1; column -= 1`. -/
def get_ascending_diagonal_start_coordinates : Nat → Nat → Nat × Nat
  | 0, column => (0, column)
  | row + 1, 0 => (row + 1, 0)
  | row + 1, column + 1 => get_ascending_diagonal_start_coordinates row column

/-- The squares of the ascending diagonal through (row, column), from the
bottom-left origin, as gathered by the loop of logic.py lines 233-234. -/
def Logic.ascending_diagonal_squares (g : Logic) (row column : Nat) : List Square :=
  let start := get_ascending_diagonal_start_coordinates row column
  let diagonal_length := min (BOARD_ROWS - start.1) (BOARD_COLUMNS - start.2)
  (List.range diagonal_length).map (fun i => g.square_at (start.1 + i) (start.2 + i))

/-- Logic._check_for_win_in_ascending_diagonal (logic.py lines 214-246). -/
def Logic.check_for_win_in_ascending_diagonal (g : Logic) (row column : Nat) :
    Option (List (Nat × Nat)) :=
  let start := get_ascending_diagonal_start_coordinates row column
  let diagonal_string :=
    (g.ascending_diagonal_squares row column).map (fun square => square.player_id)
  match find_combination g.current_player.winning_combination diagonal_string with
  | some combination_start_offset =>
    some ((List.range COMBINATION_LENGTH).map (fun i =>
      (start.1 + combination_start_offset + i, start.2 + combination_start_offset + i)))
  | none => none

/-- Logic._get_descending_diagonal_start_coordinates (logic.py lines 248-262):
`while row < BOARD_ROWS - 1 and column > 0: row += 1; column -= 1`. -/
def get_descending_diagonal_start_coordinates : Nat → Nat → Nat × Nat
  | row, 0 => (row, 0)
  | row, column + 1 =>
    if row < BOARD_ROWS - 1 then
      get_descending_diagonal_start_coordinates (row + 1) column
    else (row, column + 1)

/-- The squares of the descending diagonal through (row, column), from the
top-left origin, as gathered by the loop of logic.py lines 283-284. -/
def Logic.descending_diagonal_squares (g : Logic) (row column : Nat) : List Square :=
  let start := get_descending_diagonal_start_coordinates row column
  let diagonal_length := min (start.1 + 1) (BOARD_COLUMNS - start.2)
  (List.range diagonal_length).map (fun i => g.square_at (start.1 - i) (start.2 + i))

/-- Logic._check_for_win_in_descending_diagonal (logic.py lines 264-296). -/
def Logic.check_for_win_in_descending_diagonal (g : Logic) (row column : Nat) :
    Option (List (Nat × Nat)) :=
  let start := get_descending_diagonal_start_coordinates row column
  let diagonal_string :=
    (g.descending_diagonal_squares row column).map (fun square => square.player_id)
  match find_combination g.current_player.winning_combination diagonal_string with
  | some combination_start_offset =>
    some ((List.range COMBINATION_LENGTH).map (fun i =>
      (start.1 - combination_start_offset - i, start.2 + combination_start_offset + i)))
  | none => none

/-- The in-place update `board[row][column].player_id = id` on a board. -/
def board_place (b : List (List Square)) (row column : Nat) (id : Nat) :
    List (List Square) :=
  let board_row := b.getD row []
  let old := board_row.getD column { row := row, column := column, player_id := Square.NO_ID }
  b.set row (board_row.set column { old with player_id := id })

/-- The assignment of logic.py line 313:
`self._current_squares[actual_square.row][actual_square.column].player_id = id`. -/
def Logic.place (g : Logic) (row column : Nat) (id : Nat) : Logic :=
  { g with current_squares := board_place g.current_squares row column id }

/-- The instance attribute names `Logic.__init__` (logic.py lines 95-108)
assigns on a Logic object: these are the only data attributes such an
object carries. -/
def logic_instance_attributes : List String :=
  ["_players", "_current_squares", "_has_winner", "winning_coordinates", "current_player"]

/-- The attribute name `detect_win_in_row` (win_detection.py line 17) reads
off its `logic` argument to reach the board: `logic.current_squares`. -/
def detect_win_in_row_board_attribute : String := "current_squares"

/-- Logic.handle_move (logic.py lines 298-332) as Python runs it: the final
state paired with the error raised, if any. Line 309 fetches the first
empty square (None on a full column, whose `.row` dereference at line 313
raises). Line 313 places the piece. Line 316 then calls detect_win_in_row,
whose first statement (win_detection.py line 17) looks up the attribute
`current_squares` on the Logic object; when that name is not among the
object's attributes the lookup raises AttributeError, leaving the board
already mutated. Only if that lookup resolved would control reach the rest
of the detection chain (lines 315-327) and the winner bookkeeping or
player rotation (lines 329-332), so that continuation sits under the
attribute-membership guard. -/
def Logic.handle_move_run (g : Logic) (column : Nat) : Logic × Option String :=
  match g.get_first_empty_square_in_column column with
  | none => (g, some "AttributeError: NoneType object has no attribute row")
  | some actual_square =>
    let placed := g.place actual_square.row actual_square.column g.current_player.id
    if logic_instance_attributes.contains detect_win_in_row_board_attribute then
      let winning_coordinates :=
        match detect_win_in_row placed actual_square.row with
        | some w => some w
        | none =>
          match placed.check_for_win_in_column actual_square.column with
          | some w => some w
          | none =>
            match placed.check_for_win_in_ascending_diagonal
                actual_square.row actual_square.column with
            | some w => some w
            | none =>
              placed.check_for_win_in_descending_diagonal
                actual_square.row actual_square.column
      match winning_coordinates with
      | none => (placed.switch_to_next_player, none)
      | some w => ({ placed with has_winner := true, winning_coordinates := w }, none)
    else
      (placed, some "AttributeError: Logic object has no attribute current_squares")

/-! Verification-layer definitions: well-formedness of a board, the gravity
invariant, the states reachable by playing valid moves, and the postcondition
predicates the claim theorems are stated with. -/

/-- A board is well formed when it is BOARD_ROWS lists of BOARD_COLUMNS
squares and the square stored at [r][c] carries coordinates (r, c), exactly
what `fresh_board` builds and piece placement preserves. -/
def well_formed_board (b : List (List Square)) : Bool :=
  (b.length == BOARD_ROWS) &&
  b.all (fun row => row.length == BOARD_COLUMNS) &&
  (List.range BOARD_ROWS).all (fun r =>
    (List.range BOARD_COLUMNS).all (fun c =>
      ((board_square b r c).row == r) && ((board_square b r c).column == c)))

/-- A game state with a well-formed board. -/
def Logic.well_formed (g : Logic) : Bool :=
  well_formed_board g.current_squares

/-- The gravity invariant on a board: in every column the occupied squares
form a contiguous block starting at row 0. -/
def gravity_board (b : List (List Square)) : Bool :=
  (List.range BOARD_COLUMNS).all (fun c =>
    (List.range BOARD_ROWS).all (fun r =>
      (r == 0) ||
      ((board_square b r c).player_id == Square.NO_ID) ||
      (!((board_square b (r - 1) c).player_id == Square.NO_ID))))

/-- A game state whose board satisfies the gravity invariant. -/
def Logic.gravity (g : Logic) : Bool :=
  gravity_board g.current_squares

/-- The states reachable from a fresh engine by handle_move calls on
columns the engine itself validates. Each call leaves behind the state of
its run: the board mutation of logic.py line 313 - every such run then
raises the AttributeError pinned down for C2, which does not undo the
placement. -/
inductive Reachable : Logic → Prop
  | init : Reachable Logic.init
  | step (g : Logic) (c : Nat) :
      Reachable g → g.is_valid_move c = true → Reachable ((g.handle_move_run c).1)

/-- What C4 asserts of the first-empty-square query: a returned square is
the one stored at the smallest empty row of the column, and none comes back
exactly when all BOARD_ROWS squares of the column are occupied. The query
is a pure function of the state: it can mutate nothing. -/
def first_empty_post (g : Logic) (c : Nat) : Prop :=
  (∀ sq, g.get_first_empty_square_in_column c = some sq →
     sq.row < BOARD_ROWS ∧ sq.column = c ∧ sq.player_id = Square.NO_ID ∧
     sq = g.square_at sq.row c ∧
     ∀ r, r < sq.row → (g.square_at r c).player_id ≠ Square.NO_ID) ∧
  (g.get_first_empty_square_in_column c = none ↔
     ∀ r, r < BOARD_ROWS → (g.square_at r c).player_id ≠ Square.NO_ID)

/-- A state whose bottom row starts with four player-1 pieces, used to
evaluate the row scan on a concrete win. -/
def row_win_state : Logic :=
  { player_index := 0
    current_squares :=
      [[{ row := 0, column := 0, player_id := 1 }, { row := 0, column := 1, player_id := 1 },
        { row := 0, column := 2, player_id := 1 }, { row := 0, column := 3, player_id := 1 },
        { row := 0, column := 4, player_id := 0 }, { row := 0, column := 5, player_id := 0 },
        { row := 0, column := 6, player_id := 0 }]]
    has_winner := false
    winning_coordinates := [] }

/-! Helper lemmas. -/

/-- Python str.find semantics of `find_combination`: a returned offset is
one where the pattern occurs, and no smaller offset matches. -/
theorem find_combination_eq_some_iff (pat : List Nat) :
    ∀ (s : List Nat) (k : Nat),
      find_combination pat s = some k ↔
        ((s.drop k).take pat.length = pat ∧
          ∀ j, j < k → (s.drop j).take pat.length ≠ pat) := by
  intro s
  induction s with
  | nil =>
    intro k
    constructor
    · intro h
      simp only [find_combination] at h
      by_cases hp : pat = []
      · subst hp
        simp at h
        subst h
        simp
      · simp [hp] at h
    · intro ⟨h1, h2⟩
      simp only [List.drop_nil, List.take_nil] at h1
      simp only [find_combination, ← h1]
      cases k with
      | zero => simp
      | succ k' =>
        exfalso
        exact h2 0 (Nat.succ_pos k') (by simpa using h1.symm ▸ h1)
  | cons a tl ih =>
    intro k
    by_cases hhead : (a :: tl).take pat.length = pat
    · simp only [find_combination, if_pos hhead]
      constructor
      · intro h
        cases h
        exact ⟨by simpa using hhead, by omega⟩
      · intro ⟨_, h2⟩
        cases k with
        | zero => rfl
        | succ k' => exact absurd hhead (h2 0 (Nat.succ_pos k'))
    · simp only [find_combination, if_neg hhead]
      constructor
      · intro h
        obtain ⟨k', hk', rfl⟩ := Option.map_eq_some'.mp h
        obtain ⟨h1, h2⟩ := (ih k').mp hk'
        refine ⟨by simpa using h1, ?_⟩
        intro j hj
        cases j with
        | zero => simpa using hhead
        | succ j' => simpa using h2 j' (by omega)
      · intro ⟨h1, h2⟩
        cases k with
        | zero => exact absurd (by simpa using h1) hhead
        | succ k' =>
          have : find_combination pat tl = some k' := by
            rw [ih k']
            refine ⟨by simpa using h1, ?_⟩
            intro j hj
            simpa using h2 (j + 1) (by omega)
          simp [this]

/-- List.find? returns the first element satisfying the test: it appears at
an index all of whose predecessors fail the test. -/
theorem find?_some_first {α : Type} (p : α → Bool) :
    ∀ (l : List α) (a : α), l.find? p = some a →
      ∃ i, i < l.length ∧ l[i]? = some a ∧ p a = true ∧
        ∀ j, j < i → ∃ b, l[j]? = some b ∧ p b = false := by
  intro l
  induction l with
  | nil => intro a h; simp [List.find?] at h
  | cons x tl ih =>
    intro a h
    by_cases hx : p x = true
    · rw [List.find?_cons_of_pos _ hx] at h
      cases h
      exact ⟨0, by simp, by simp, hx, by omega⟩
    · rw [List.find?_cons_of_neg _ hx] at h
      obtain ⟨i, hi, hget, hpa, hbefore⟩ := ih a h
      refine ⟨i + 1, by simpa using hi, by simpa using hget, hpa, ?_⟩
      intro j hj
      cases j with
      | zero => exact ⟨x, by simp, by simpa using hx⟩
      | succ j' =>
        obtain ⟨b, hb, hpb⟩ := hbefore j' (by omega)
        exact ⟨b, by simpa using hb, hpb⟩

/-- Unfolding of board well-formedness into its three propositional parts. -/
theorem well_formed_board_iff (b : List (List Square)) :
    well_formed_board b = true ↔
      (b.length = BOARD_ROWS ∧
        (∀ row ∈ b, row.length = BOARD_COLUMNS) ∧
        ∀ r, r < BOARD_ROWS → ∀ c, c < BOARD_COLUMNS →
          (board_square b r c).row = r ∧ (board_square b r c).column = c) := by
  simp only [well_formed_board, Bool.and_eq_true, List.all_eq_true, List.mem_range,
    beq_iff_eq, and_assoc]

/-- Unfolding of the gravity invariant into its propositional form. -/
theorem gravity_board_iff (b : List (List Square)) :
    gravity_board b = true ↔
      ∀ c, c < BOARD_COLUMNS → ∀ r, r < BOARD_ROWS → 0 < r →
        (board_square b r c).player_id ≠ Square.NO_ID →
        (board_square b (r - 1) c).player_id ≠ Square.NO_ID := by
  simp only [gravity_board, List.all_eq_true, List.mem_range, Bool.or_eq_true,
    beq_iff_eq, Bool.not_eq_true', beq_eq_false_iff_ne, ne_eq]
  constructor
  · intro h c hc r hr hr0 hocc
    rcases h c hc r hr with (h0 | hempty) | hbelow
    · omega
    · exact absurd hempty hocc
    · exact hbelow
  · intro h c hc r hr
    by_cases hr0 : r = 0
    · exact Or.inl (Or.inl hr0)
    · by_cases hocc : (board_square b r c).player_id = Square.NO_ID
      · exact Or.inl (Or.inr hocc)
      · exact Or.inr (h c hc r hr (by omega) hocc)

theorem wf_length {b : List (List Square)} (h : well_formed_board b = true) :
    b.length = BOARD_ROWS :=
  ((well_formed_board_iff b).mp h).1

theorem wf_row_length {b : List (List Square)} (h : well_formed_board b = true)
    {r : Nat} (hr : r < BOARD_ROWS) : (b.getD r []).length = BOARD_COLUMNS := by
  have hlen : r < b.length := by rw [wf_length h]; exact hr
  have : b.getD r [] = b[r] := by
    rw [List.getD_eq_getElem?_getD, List.getElem?_eq_getElem hlen]; rfl
  rw [this]
  exact ((well_formed_board_iff b).mp h).2.1 _ (List.getElem_mem hlen)

theorem wf_coords {b : List (List Square)} (h : well_formed_board b = true)
    {r c : Nat} (hr : r < BOARD_ROWS) (hc : c < BOARD_COLUMNS) :
    (board_square b r c).row = r ∧ (board_square b r c).column = c :=
  ((well_formed_board_iff b).mp h).2.2 r hr c hc

/-- On rows long enough, extracting entry `c` of every row by `getElem?`
keeps every row. -/
theorem filterMap_col_eq_map (c : Nat) (L : List (List Square))
    (h : ∀ row ∈ L, c < row.length) :
    L.filterMap (fun row => row[c]?) =
      L.map (fun row => row.getD c { row := 0, column := 0, player_id := 0 }) := by
  induction L with
  | nil => simp
  | cons a L ih =>
    have ha : c < a.length := h a (by simp)
    rw [List.filterMap_cons, List.map_cons, List.getElem?_eq_getElem ha]
    simp only []
    rw [ih (fun row hrow => h row (by simp [hrow]))]
    congr 1
    rw [List.getD_eq_getElem?_getD, List.getElem?_eq_getElem ha]
    rfl

/-- Under well-formedness the squares of a column are exactly the squares
stored at rows 0 .. BOARD_ROWS - 1 of that column, bottom first. -/
theorem column_squares_eq (g : Logic) (c : Nat) (hwf : g.well_formed = true)
    (hc : c < BOARD_COLUMNS) :
    g.column_squares c = (List.range BOARD_ROWS).map (fun r => g.square_at r c) := by
  have hrows : ∀ row ∈ g.current_squares, c < row.length := by
    intro row hrow
    have := ((well_formed_board_iff _).mp hwf).2.1 row hrow
    omega
  rw [Logic.column_squares, filterMap_col_eq_map c _ hrows]
  apply List.ext_getElem
  · simp [wf_length hwf]
  · intro i h1 h2
    simp only [List.getElem_map, List.getElem_range]
    have hi : i < g.current_squares.length := by simpa using h1
    have hrow : g.current_squares.getD i [] = g.current_squares[i] := by
      rw [List.getD_eq_getElem?_getD, List.getElem?_eq_getElem hi]; rfl
    have hclen : c < (g.current_squares[i]).length :=
      hrows _ (List.getElem_mem hi)
    simp only [Logic.square_at, board_square, hrow]
    rw [List.getD_eq_getElem?_getD, List.getD_eq_getElem?_getD,
      List.getElem?_eq_getElem hclen]
    rfl

/-- A returned first-empty square is the stored square of the smallest
empty row of the column, every row below it being occupied. -/
theorem get_first_empty_some_spec {g : Logic} {c : Nat} {sq : Square}
    (hwf : g.well_formed = true) (hc : c < BOARD_COLUMNS)
    (h : g.get_first_empty_square_in_column c = some sq) :
    sq.row < BOARD_ROWS ∧ sq.column = c ∧ sq.player_id = Square.NO_ID ∧
      sq = g.square_at sq.row c ∧
      ∀ r, r < sq.row → (g.square_at r c).player_id ≠ Square.NO_ID := by
  rw [Logic.get_first_empty_square_in_column, column_squares_eq g c hwf hc] at h
  obtain ⟨i, hi, hget, hp, hbefore⟩ := find?_some_first _ _ _ h
  have hi6 : i < BOARD_ROWS := by simpa using hi
  have hsq : sq = g.square_at i c := by
    rw [List.getElem?_map, List.getElem?_range hi6] at hget
    simpa using hget.symm
  have hrow : sq.row = i := by
    rw [hsq]
    exact (wf_coords hwf hi6 hc).1
  have hcol : sq.column = c := by
    rw [hsq]
    exact (wf_coords hwf hi6 hc).2
  refine ⟨by omega, hcol, by simpa using hp, by rw [hrow]; exact hsq, ?_⟩
  intro r hr
  obtain ⟨b, hb, hpb⟩ := hbefore r (by omega)
  have hr6 : r < BOARD_ROWS := by omega
  rw [List.getElem?_map, List.getElem?_range hr6] at hb
  have : b = g.square_at r c := by simpa using hb.symm
  rw [this] at hpb
  simpa using hpb

/-- The first-empty query returns none exactly when every row of the
column is occupied. -/
theorem get_first_empty_none_iff {g : Logic} {c : Nat}
    (hwf : g.well_formed = true) (hc : c < BOARD_COLUMNS) :
    g.get_first_empty_square_in_column c = none ↔
      ∀ r, r < BOARD_ROWS → (g.square_at r c).player_id ≠ Square.NO_ID := by
  rw [Logic.get_first_empty_square_in_column, column_squares_eq g c hwf hc,
    List.find?_eq_none]
  constructor
  · intro h r hr
    have := h (g.square_at r c) (List.mem_map.mpr ⟨r, List.mem_range.mpr hr, rfl⟩)
    simpa using this
  · intro h x hx
    obtain ⟨r, hr, rfl⟩ := List.mem_map.mp hx
    simpa using h r (List.mem_range.mp hr)

/-- A column index at or beyond BOARD_COLUMNS selects no squares. -/
theorem column_squares_out_of_range {g : Logic} {c : Nat}
    (hwf : g.well_formed = true) (hc : BOARD_COLUMNS ≤ c) :
    g.column_squares c = [] := by
  rw [Logic.column_squares, List.filterMap_eq_nil_iff]
  intro row hrow
  have := ((well_formed_board_iff _).mp hwf).2.1 row hrow
  exact List.getElem?_eq_none (by omega)

theorem getD_set_eq {α : Type} (l : List α) (i : Nat) (x d : α)
    (h : i < l.length) : (l.set i x).getD i d = x := by
  rw [List.getD_eq_getElem?_getD, List.getElem?_set]
  simp [h]

theorem getD_set_ne {α : Type} (l : List α) {i j : Nat} (x d : α)
    (h : i ≠ j) : (l.set i x).getD j d = l.getD j d := by
  rw [List.getD_eq_getElem?_getD, List.getElem?_set, if_neg h,
    ← List.getD_eq_getElem?_getD]

/-- Reading a board after a placement: the placed cell carries the new id,
every other cell is unchanged. -/
theorem board_square_place {b : List (List Square)} (hwf : well_formed_board b = true)
    {r0 c0 : Nat} (hr0 : r0 < BOARD_ROWS) (hc0 : c0 < BOARD_COLUMNS) (id : Nat)
    (r c : Nat) :
    board_square (board_place b r0 c0 id) r c =
      if r = r0 ∧ c = c0 then { board_square b r0 c0 with player_id := id }
      else board_square b r c := by
  have hblen : r0 < b.length := by rw [wf_length hwf]; exact hr0
  have hrowlen : c0 < (b.getD r0 []).length := by rw [wf_row_length hwf hr0]; exact hc0
  by_cases hr : r = r0
  · subst hr
    rw [board_place, board_square, getD_set_eq _ _ _ _ hblen]
    by_cases hcc : c = c0
    · subst hcc
      rw [getD_set_eq _ _ _ _ hrowlen, if_pos ⟨rfl, rfl⟩]
      rfl
    · rw [getD_set_ne _ _ _ (fun hh => hcc hh.symm), if_neg (fun hh => hcc hh.2)]
      rfl
  · rw [board_place, board_square, getD_set_ne _ _ _ (fun hh => hr hh.symm),
      if_neg (fun hh => hr hh.1)]
    rfl

/-- Placement preserves board well-formedness. -/
theorem place_well_formed {b : List (List Square)} (hwf : well_formed_board b = true)
    {r0 c0 : Nat} (hr0 : r0 < BOARD_ROWS) (hc0 : c0 < BOARD_COLUMNS) (id : Nat) :
    well_formed_board (board_place b r0 c0 id) = true := by
  rw [well_formed_board_iff]
  refine ⟨by simpa [board_place] using wf_length hwf, ?_, ?_⟩
  · intro row hrow
    rw [board_place] at hrow
    obtain ⟨i, hi, hieq⟩ := List.mem_iff_getElem.mp hrow
    rw [List.getElem_set] at hieq
    by_cases hir : r0 = i
    · rw [if_pos hir] at hieq
      rw [← hieq, List.length_set]
      exact wf_row_length hwf hr0
    · rw [if_neg hir] at hieq
      have hib : i < b.length := by simpa using hi
      rw [← hieq]
      exact ((well_formed_board_iff b).mp hwf).2.1 _ (List.getElem_mem hib)
  · intro r hr c hc
    rw [board_square_place hwf hr0 hc0]
    by_cases hrc : r = r0 ∧ c = c0
    · rw [if_pos hrc]
      obtain ⟨rfl, rfl⟩ := hrc
      exact wf_coords hwf hr0 hc0
    · rw [if_neg hrc]
      exact wf_coords hwf hr hc

/-- The current player's id is 1 or 2, never the empty sentinel. -/
theorem current_player_id_ne (g : Logic) : g.current_player.id ≠ Square.NO_ID := by
  rcases Nat.mod_two_eq_zero_or_one g.player_index with h | h <;>
    simp [Logic.current_player, PLAYERS, h, Square.NO_ID]

theorem is_valid_move_parts {g : Logic} {c : Nat} (hv : g.is_valid_move c = true) :
    (g.get_first_empty_square_in_column c).isSome = true ∧ g.has_winner = false := by
  rw [Logic.is_valid_move, Bool.and_eq_true] at hv
  exact ⟨hv.1, by simpa using hv.2⟩

/-- A valid move's column is in range: a column at or past BOARD_COLUMNS
selects no squares, so its first-empty lookup returns none. -/
theorem valid_move_column_lt {g : Logic} {c : Nat} (hwf : g.well_formed = true)
    (hv : g.is_valid_move c = true) : c < BOARD_COLUMNS := by
  by_contra hc
  have hnone : g.get_first_empty_square_in_column c = none := by
    rw [Logic.get_first_empty_square_in_column,
      column_squares_out_of_range hwf (by omega)]
    rfl
  have := (is_valid_move_parts hv).1
  rw [hnone] at this
  simp at this

/-- On a column that is not full, the run of handle_move places the piece
at the first empty square: the attribute lookup of win_detection.py line 17
fails (decidably: `current_squares` is not an instance attribute), so the
run stops there with the placed board and the AttributeError. -/
theorem handle_move_run_of_some {g : Logic} {c : Nat} {sq : Square}
    (h : g.get_first_empty_square_in_column c = some sq) :
    g.handle_move_run c =
      (g.place sq.row sq.column g.current_player.id,
       some "AttributeError: Logic object has no attribute current_squares") := by
  simp only [Logic.handle_move_run, h]
  rfl

/-- One valid move's run preserves well-formedness and gravity of the
state it leaves behind. -/
theorem handle_move_run_preserves {g : Logic} {c : Nat}
    (hwf : g.well_formed = true) (hgrav : g.gravity = true)
    (hv : g.is_valid_move c = true) :
    ((g.handle_move_run c).1).well_formed = true ∧
      ((g.handle_move_run c).1).gravity = true := by
  have hc := valid_move_column_lt hwf hv
  obtain ⟨sq, h⟩ := Option.isSome_iff_exists.mp (is_valid_move_parts hv).1
  obtain ⟨hr6, hcol, hempty, hsq_eq, hmin⟩ := get_first_empty_some_spec hwf hc h
  have hc' : sq.column < BOARD_COLUMNS := by rw [hcol]; exact hc
  have hcs : ((g.handle_move_run c).1).current_squares =
      board_place g.current_squares sq.row sq.column g.current_player.id := by
    rw [handle_move_run_of_some h]
    rfl
  constructor
  · rw [Logic.well_formed, hcs]
    exact place_well_formed hwf hr6 hc' _
  · rw [Logic.gravity, hcs, gravity_board_iff]
    intro c2 hc2 r hr hr0
    rw [board_square_place hwf hr6 hc', board_square_place hwf hr6 hc']
    by_cases hme : r = sq.row ∧ c2 = sq.column
    · rw [if_pos hme]
      intro _
      have hrne : ¬(r - 1 = sq.row ∧ c2 = sq.column) := by
        intro hh
        omega
      rw [if_neg hrne]
      have := hmin (r - 1) (by omega)
      rw [Logic.square_at] at this
      have hcc : c2 = c := by rw [hme.2, hcol]
      rw [hcc]
      exact this
    · rw [if_neg hme]
      intro hocc
      have hbelow := (gravity_board_iff _).mp hgrav c2 hc2 r hr hr0 hocc
      by_cases hbe : r - 1 = sq.row ∧ c2 = sq.column
      · rw [if_pos hbe]
        exact current_player_id_ne g
      · rw [if_neg hbe]
        exact hbelow

/-- Every reachable state has a well-formed board satisfying gravity. -/
theorem reachable_invariant {g : Logic} (h : Reachable g) :
    g.well_formed = true ∧ g.gravity = true := by
  induction h with
  | init => exact ⟨by decide, by decide⟩
  | step g c _ hv ih => exact handle_move_run_preserves ih.1 ih.2 hv

/-- Membership form of the top-row emptiness test inside is_tied. -/
theorem contains_no_id_eq_false_iff (L : List Square) :
    ((L.map (fun s => s.player_id)).contains Square.NO_ID = false) ↔
      ∀ sq ∈ L, sq.player_id ≠ Square.NO_ID := by
  rw [Bool.eq_false_iff, Ne, List.elem_iff]
  simp [List.mem_map]

/-- Unfolding of is_tied into its two propositional parts. -/
theorem is_tied_iff (g : Logic) :
    g.is_tied = true ↔
      (g.has_winner = false ∧
        ∀ sq ∈ g.current_squares.getD (BOARD_ROWS - 1) [],
          sq.player_id ≠ Square.NO_ID) := by
  rw [Logic.is_tied]
  simp only [Bool.and_eq_true, Bool.not_eq_true']
  exact and_congr Iff.rfl (contains_no_id_eq_false_iff _)

/-- Over fresh_board every in-range cell is the empty square of its
coordinates. -/
theorem board_square_fresh {r c : Nat} (hr : r < BOARD_ROWS) (hc : c < BOARD_COLUMNS) :
    board_square fresh_board r c =
      { row := r, column := c, player_id := Square.NO_ID } := by
  have houter : fresh_board.getD r [] =
      (List.range BOARD_COLUMNS).map
        (fun column => { row := r, column := column, player_id := Square.NO_ID }) := by
    rw [fresh_board, List.getD_eq_getElem?_getD, List.getElem?_map,
      List.getElem?_range hr]
    rfl
  rw [board_square, houter, List.getD_eq_getElem?_getD, List.getElem?_map,
    List.getElem?_range hc]
  rfl

/-! The claims. -/

/-- C2 (code_bug evidence): on a fresh engine the move in column 0 is valid,
yet `current_squares` - the attribute detect_win_in_row reads off the Logic
object at win_detection.py line 17 - is not among the attributes
Logic.__init__ defines (logic.py keeps the board in `_current_squares`), so
the run raises an AttributeError, and it does so only after the piece was
placed at line 313: the final state differs from the starting one, so the
failure is not atomic either. -/
theorem handle_move_total_counterexample :
    Logic.init.is_valid_move 0 = true ∧
    ¬ detect_win_in_row_board_attribute ∈ logic_instance_attributes ∧
    (Logic.init.handle_move_run 0).2 =
      some "AttributeError: Logic object has no attribute current_squares" ∧
    (Logic.init.handle_move_run 0).1 ≠ Logic.init := by
  refine ⟨by decide, by decide, by decide, by decide⟩

/-- C4: on a well-formed board, getFirstEmptySquareInColumn returns the
square stored at the smallest row of the column whose player_id is the
empty sentinel, and returns none exactly when all BOARD_ROWS squares of the
column are occupied; being a pure function of the state, it mutates
nothing. -/
theorem get_first_empty_square_spec :
    ∀ (g : Logic) (c : Nat), g.well_formed = true → c < BOARD_COLUMNS →
      first_empty_post g c := by
  intro g c hwf hc
  constructor
  · intro sq h
    exact get_first_empty_some_spec hwf hc h
  · exact get_first_empty_none_iff hwf hc

/-- Witness for C4 at the fresh engine and column 0. -/
theorem get_first_empty_square_spec_witness : first_empty_post Logic.init 0 :=
  get_first_empty_square_spec Logic.init 0 (by decide) (by decide)

/-- C6: isTied returns true iff there is no winner and every square of the
top row (row BOARD_ROWS - 1 = 5) holds a non-empty player_id. -/
theorem is_tied_iff_no_winner_top_row_full (g : Logic) :
    g.is_tied = true ↔
      (g.has_winner = false ∧
        ∀ sq ∈ g.current_squares.getD (BOARD_ROWS - 1) [],
          sq.player_id ≠ Square.NO_ID) :=
  is_tied_iff g

/-- C8: constructing a Player with an id outside [1, 9] fails with the
invalid-argument error; for an id inside [1, 9] construction succeeds and
the winning combination is the player's single decimal digit repeated
COMBINATION_LENGTH times. -/
theorem player_make_spec :
    ∀ (id : Int) (colour : String),
      ((1 ≤ id ∧ id ≤ 9) →
        ∃ p, Player.make id colour = Except.ok p ∧
          p.id = id.toNat ∧ p.colour = colour ∧
          p.winning_combination = List.replicate COMBINATION_LENGTH id.toNat) ∧
      ((id < 1 ∨ 9 < id) →
        Player.make id colour =
          Except.error "ValueError: id must be between 1 and 9, inclusive.") := by
  intro id colour
  constructor
  · intro ⟨h1, h2⟩
    rw [Player.make, if_neg (by omega)]
    exact ⟨_, rfl, rfl, rfl, rfl⟩
  · intro h
    rw [Player.make, if_pos (by omega)]

/-- Witness for C8: id 5 constructs, id 0 is rejected. -/
theorem player_make_spec_witness :
    (∃ p, Player.make 5 "green" = Except.ok p ∧
       p.id = (5 : Int).toNat ∧ p.colour = "green" ∧
       p.winning_combination = List.replicate COMBINATION_LENGTH (5 : Int).toNat) ∧
    Player.make 0 "grey" =
      Except.error "ValueError: id must be between 1 and 9, inclusive." :=
  ⟨(player_make_spec 5 "green").1 ⟨by decide, by decide⟩,
   (player_make_spec 0 "grey").2 (by decide)⟩

/-- C9: reset_game installs a fresh well-formed grid of empty squares,
clears has_winner and winning_coordinates, and leaves the rotation
position - hence the current player - untouched. -/
theorem reset_game_spec :
    ∀ g : Logic,
      (g.reset_game).current_squares = fresh_board ∧
      (g.reset_game).has_winner = false ∧
      (g.reset_game).winning_coordinates = [] ∧
      (g.reset_game).player_index = g.player_index ∧
      (g.reset_game).current_player = g.current_player ∧
      (g.reset_game).well_formed = true ∧
      (∀ r, r < BOARD_ROWS → ∀ c, c < BOARD_COLUMNS →
        ((g.reset_game).square_at r c).player_id = Square.NO_ID) := by
  intro g
  refine ⟨rfl, rfl, rfl, rfl, rfl, by rfl, ?_⟩
  intro r hr c hc
  show (board_square fresh_board r c).player_id = Square.NO_ID
  rw [board_square_fresh hr hc]

/-- Under well-formedness and gravity a full top row makes every row of
every column occupied. -/
theorem top_row_full_all_occupied {g : Logic} (hwf : g.well_formed = true)
    (hgrav : g.gravity = true)
    (htop : ∀ sq ∈ g.current_squares.getD (BOARD_ROWS - 1) [],
      sq.player_id ≠ Square.NO_ID)
    {c : Nat} (hc : c < BOARD_COLUMNS) :
    ∀ r, r < BOARD_ROWS → (g.square_at r c).player_id ≠ Square.NO_ID := by
  have hB : BOARD_ROWS = 6 := rfl
  have htoplen : c < (g.current_squares.getD (BOARD_ROWS - 1) []).length := by
    rw [wf_row_length hwf (by omega)]
    exact hc
  have hmem : (g.current_squares.getD (BOARD_ROWS - 1) []).getD c
      { row := BOARD_ROWS - 1, column := c, player_id := Square.NO_ID } ∈
      g.current_squares.getD (BOARD_ROWS - 1) [] := by
    set top := g.current_squares.getD (BOARD_ROWS - 1) [] with htopdef
    rw [List.getD_eq_getElem?_getD, List.getElem?_eq_getElem htoplen]
    exact List.getElem_mem htoplen
  have h5 : (g.square_at (BOARD_ROWS - 1) c).player_id ≠ Square.NO_ID :=
    htop _ hmem
  have hstep : ∀ k, k ≤ BOARD_ROWS - 1 →
      (g.square_at (BOARD_ROWS - 1 - k) c).player_id ≠ Square.NO_ID := by
    intro k
    induction k with
    | zero => intro _; exact h5
    | succ n ih =>
      intro hk
      have h1 := ih (by omega)
      have h2 := (gravity_board_iff _).mp hgrav c hc (BOARD_ROWS - 1 - n)
        (by omega) (by omega) h1
      have heq : BOARD_ROWS - 1 - n - 1 = BOARD_ROWS - 1 - (n + 1) := by omega
      rw [heq] at h2
      exact h2
  intro r hr
  have := hstep (BOARD_ROWS - 1 - r) (by omega)
  have heq : BOARD_ROWS - 1 - (BOARD_ROWS - 1 - r) = r := by omega
  rw [heq] at this
  exact this

/-- C7: isValidMove is the conjunction of column-not-full and no-winner;
and on a tied board (full winnerless, under the gravity invariant every
reachable state satisfies) every column is full, so every move is
invalid. -/
theorem is_valid_move_spec :
    ∀ (g : Logic) (c : Nat), c < BOARD_COLUMNS →
      (g.is_valid_move c = true ↔
        ((g.get_first_empty_square_in_column c).isSome = true ∧
          g.has_winner = false)) ∧
      (g.well_formed = true → g.gravity = true → g.is_tied = true →
        g.is_valid_move c = false) := by
  intro g c hc
  constructor
  · rw [Logic.is_valid_move, Bool.and_eq_true, Bool.not_eq_true']
  · intro hwf hgrav htied
    obtain ⟨hnw, htop⟩ := (is_tied_iff g).mp htied
    have hall := top_row_full_all_occupied hwf hgrav htop hc
    have hnone : g.get_first_empty_square_in_column c = none :=
      (get_first_empty_none_iff hwf hc).mpr hall
    rw [Logic.is_valid_move, hnone]
    rfl

/-- Witness for C7 at the fresh engine and column 0. -/
theorem is_valid_move_spec_witness :
    (Logic.init.is_valid_move 0 = true ↔
      ((Logic.init.get_first_empty_square_in_column 0).isSome = true ∧
        Logic.init.has_winner = false)) ∧
    (Logic.init.well_formed = true → Logic.init.gravity = true →
      Logic.init.is_tied = true → Logic.init.is_valid_move 0 = false) :=
  is_valid_move_spec Logic.init 0 (by decide)

/-- C1 (code_bug evidence): on the fresh engine the move in column 0 is
valid and the run does put the current player's id into the bottom-most
empty square (0, 0) - logic.py line 313 - but it then raises the
AttributeError of C2 at the win-scan call, so none of the bookkeeping the
claim describes happens: has_winner stays false, winning_coordinates stays
empty, and the current player never advances even though no win was
recorded. -/
theorem handle_move_effect_failing :
    Logic.init.is_valid_move 0 = true ∧
    ((Logic.init.handle_move_run 0).1.square_at 0 0).player_id =
      Logic.init.current_player.id ∧
    (Logic.init.handle_move_run 0).2 =
      some "AttributeError: Logic object has no attribute current_squares" ∧
    (Logic.init.handle_move_run 0).1.has_winner = false ∧
    (Logic.init.handle_move_run 0).1.winning_coordinates = [] ∧
    (Logic.init.handle_move_run 0).1.current_player = Logic.init.current_player := by
  refine ⟨by decide, by decide, by decide, by decide, by decide, by decide⟩

/-- C3 (code_bug evidence): the scan chain never runs. On the fresh engine
the move in column 3 is valid, yet the run raises inside its very first
scan call - the board-attribute lookup of win_detection.py line 17 comes
before any comparison - so no scan is consulted in any order and no
coordinates are ever reported: winning_coordinates stays empty and
has_winner false. -/
theorem handle_move_scan_order_failing :
    Logic.init.is_valid_move 3 = true ∧
    (Logic.init.handle_move_run 3).2 =
      some "AttributeError: Logic object has no attribute current_squares" ∧
    (Logic.init.handle_move_run 3).1.winning_coordinates = [] ∧
    (Logic.init.handle_move_run 3).1.has_winner = false := by
  refine ⟨by decide, by decide, by decide, by decide⟩

theorem wc_length (p : Player) :
    p.winning_combination.length = COMBINATION_LENGTH :=
  List.length_replicate _ _

/-- C5: whenever a directional scan reports a win, it reports exactly
COMBINATION_LENGTH coordinates: those of the earliest-starting (smallest
offset in scan order from the line's origin) run matching the current
player's combination along that line, ordered from the line's origin
toward its far end - even when the actual run is longer. -/
theorem win_scans_report_first_four :
    (∀ (g : Logic) (row : Nat) (w : List (Nat × Nat)),
      detect_win_in_row g row = some w →
      ∃ k,
        (((g.current_squares.getD row []).map (fun s => s.player_id)).drop k).take
            COMBINATION_LENGTH = g.current_player.winning_combination ∧
        (∀ j, j < k →
          (((g.current_squares.getD row []).map (fun s => s.player_id)).drop j).take
              COMBINATION_LENGTH ≠ g.current_player.winning_combination) ∧
        w = (List.range COMBINATION_LENGTH).map (fun i => (row, k + i)) ∧
        w.length = COMBINATION_LENGTH) ∧
    (∀ (g : Logic) (column : Nat) (w : List (Nat × Nat)),
      g.check_for_win_in_column column = some w →
      ∃ k,
        (((g.column_squares column).map (fun s => s.player_id)).drop k).take
            COMBINATION_LENGTH = g.current_player.winning_combination ∧
        (∀ j, j < k →
          (((g.column_squares column).map (fun s => s.player_id)).drop j).take
              COMBINATION_LENGTH ≠ g.current_player.winning_combination) ∧
        w = (List.range COMBINATION_LENGTH).map (fun i => (k + i, column)) ∧
        w.length = COMBINATION_LENGTH) ∧
    (∀ (g : Logic) (row column : Nat) (w : List (Nat × Nat)),
      g.check_for_win_in_ascending_diagonal row column = some w →
      ∃ k,
        (((g.ascending_diagonal_squares row column).map (fun s => s.player_id)).drop k).take
            COMBINATION_LENGTH = g.current_player.winning_combination ∧
        (∀ j, j < k →
          (((g.ascending_diagonal_squares row column).map (fun s => s.player_id)).drop j).take
              COMBINATION_LENGTH ≠ g.current_player.winning_combination) ∧
        w = (List.range COMBINATION_LENGTH).map (fun i =>
              ((get_ascending_diagonal_start_coordinates row column).1 + k + i,
               (get_ascending_diagonal_start_coordinates row column).2 + k + i)) ∧
        w.length = COMBINATION_LENGTH) ∧
    (∀ (g : Logic) (row column : Nat) (w : List (Nat × Nat)),
      g.check_for_win_in_descending_diagonal row column = some w →
      ∃ k,
        (((g.descending_diagonal_squares row column).map (fun s => s.player_id)).drop k).take
            COMBINATION_LENGTH = g.current_player.winning_combination ∧
        (∀ j, j < k →
          (((g.descending_diagonal_squares row column).map (fun s => s.player_id)).drop j).take
              COMBINATION_LENGTH ≠ g.current_player.winning_combination) ∧
        w = (List.range COMBINATION_LENGTH).map (fun i =>
              ((get_descending_diagonal_start_coordinates row column).1 - k - i,
               (get_descending_diagonal_start_coordinates row column).2 + k + i)) ∧
        w.length = COMBINATION_LENGTH) := by
  refine ⟨?_, ?_, ?_, ?_⟩
  · intro g row w h
    simp only [detect_win_in_row] at h
    cases hfind : find_combination g.current_player.winning_combination
        ((g.current_squares.getD row []).map (fun s => s.player_id)) with
    | none => rw [hfind] at h; exact absurd h (by simp)
    | some k =>
      rw [hfind] at h
      simp only [Option.some.injEq] at h
      obtain ⟨h1, h2⟩ := (find_combination_eq_some_iff _ _ _).mp hfind
      rw [wc_length] at h1
      refine ⟨k, h1, ?_, h.symm, ?_⟩
      · intro j hj
        have := h2 j hj
        rw [wc_length] at this
        exact this
      · rw [← h]
        simp
  · intro g column w h
    simp only [Logic.check_for_win_in_column] at h
    cases hfind : find_combination g.current_player.winning_combination
        ((g.column_squares column).map (fun s => s.player_id)) with
    | none => rw [hfind] at h; exact absurd h (by simp)
    | some k =>
      rw [hfind] at h
      simp only [Option.some.injEq] at h
      obtain ⟨h1, h2⟩ := (find_combination_eq_some_iff _ _ _).mp hfind
      rw [wc_length] at h1
      refine ⟨k, h1, ?_, h.symm, ?_⟩
      · intro j hj
        have := h2 j hj
        rw [wc_length] at this
        exact this
      · rw [← h]
        simp
  · intro g row column w h
    simp only [Logic.check_for_win_in_ascending_diagonal] at h
    cases hfind : find_combination g.current_player.winning_combination
        ((g.ascending_diagonal_squares row column).map (fun s => s.player_id)) with
    | none => rw [hfind] at h; exact absurd h (by simp)
    | some k =>
      rw [hfind] at h
      simp only [Option.some.injEq] at h
      obtain ⟨h1, h2⟩ := (find_combination_eq_some_iff _ _ _).mp hfind
      rw [wc_length] at h1
      refine ⟨k, h1, ?_, h.symm, ?_⟩
      · intro j hj
        have := h2 j hj
        rw [wc_length] at this
        exact this
      · rw [← h]
        simp
  · intro g row column w h
    simp only [Logic.check_for_win_in_descending_diagonal] at h
    cases hfind : find_combination g.current_player.winning_combination
        ((g.descending_diagonal_squares row column).map (fun s => s.player_id)) with
    | none => rw [hfind] at h; exact absurd h (by simp)
    | some k =>
      rw [hfind] at h
      simp only [Option.some.injEq] at h
      obtain ⟨h1, h2⟩ := (find_combination_eq_some_iff _ _ _).mp hfind
      rw [wc_length] at h1
      refine ⟨k, h1, ?_, h.symm, ?_⟩
      · intro j hj
        have := h2 j hj
        rw [wc_length] at this
        exact this
      · rw [← h]
        simp

/-- Witness for C5: the row scan on a board whose bottom row starts with
four player-1 pieces reports exactly those four coordinates. -/
theorem win_scans_report_first_four_witness :
    ∃ k,
      (((row_win_state.current_squares.getD 0 []).map (fun s => s.player_id)).drop k).take
          COMBINATION_LENGTH = row_win_state.current_player.winning_combination ∧
      (∀ j, j < k →
        (((row_win_state.current_squares.getD 0 []).map (fun s => s.player_id)).drop j).take
            COMBINATION_LENGTH ≠ row_win_state.current_player.winning_combination) ∧
      [(0, 0), (0, 1), (0, 2), (0, 3)] =
        (List.range COMBINATION_LENGTH).map (fun i => ((0 : Nat), k + i)) ∧
      ([(0, 0), (0, 1), (0, 2), (0, 3)] : List (Nat × Nat)).length = COMBINATION_LENGTH :=
  win_scans_report_first_four.1 row_win_state 0 [(0, 0), (0, 1), (0, 2), (0, 3)]
    (by decide)

/-- C10: in every state reachable from the fresh engine by handle_move
calls on valid columns - each call mutating the board as the source does
at logic.py line 313 and then raising (C2) - the occupied squares of each
column form a contiguous block starting at row 0: a square occupied at
row r > 0 sits on an occupied square at row r - 1. -/
theorem reachable_gravity :
    ∀ (g : Logic), Reachable g → ∀ r c, r < BOARD_ROWS → c < BOARD_COLUMNS →
      0 < r → (g.square_at r c).player_id ≠ Square.NO_ID →
      (g.square_at (r - 1) c).player_id ≠ Square.NO_ID := by
  intro g hreach r c hr hc hr0 hocc
  exact (gravity_board_iff _).mp (reachable_invariant hreach).2 c hc r hr hr0 hocc

/-- Witness for C10 after two moves in column 3: the square at (1, 3) is
occupied, so the square at (0, 3) under it is occupied. -/
theorem reachable_gravity_witness :
    ((((Logic.init.handle_move_run 3).1.handle_move_run 3).1).square_at 0 3).player_id ≠
      Square.NO_ID :=
  reachable_gravity ((Logic.init.handle_move_run 3).1.handle_move_run 3).1
    (Reachable.step (Logic.init.handle_move_run 3).1 3
      (Reachable.step Logic.init 3 Reachable.init (by decide)) (by decide))
    1 3 (by decide) (by decide) (by decide) (by decide)

end ConnectFour
